import Mathlib

/-! Citation generator (`script.js`)

A shallow embedding of the citation engine of `script.js`: `generateCitation`,
the two builders `generateBookCitation` and `generateWebsiteCitation`, and their
helpers `processAuthors`, `formatDate` and `monthToString`.

Modelling conventions.

* A JavaScript string is a Lean `String`.  The engine only splits on `,`, trims
  white space and concatenates, so the difference between UTF-16 code units and
  Unicode scalar values is not observable here.
* The script reads its inputs from the page (`document.getElementById(..).value`)
  and from the closure variables `currentStyle` and `currentTab`.  They are
  gathered in the record `Page`, which is passed explicitly.
* A builder returns a string and may call `alert`.  Both are recorded in `Outcome`.
  What the page shows, and the alerts raised so far, are the record `Display`.
* `new Date(..)`, `getFullYear`, `getMonth` and `getDate` belong to the JavaScript
  host.  They follow ECMA-262 (section "Date Objects"); what the standard leaves to
  the implementation (the local time-zone adjustment, and the parsing of strings
  outside the date-only ISO format) is a parameter, `Host`.
-/

namespace CitationGenerator

/-! ## JavaScript strings and arrays -/

/-- The code points removed by `String.prototype.trim`: ECMA-262 `WhiteSpace`
(TAB, VT, FF, SP, NBSP, ZWNBSP and the category Zs) and `LineTerminator`
(LF, CR, LS, PS). -/
def isWhiteSpace (c : Char) : Bool :=
  let n := c.toNat
  n = 0x09 || n = 0x0A || n = 0x0B || n = 0x0C || n = 0x0D || n = 0x20 || n = 0xA0 ||
  n = 0x1680 || (0x2000 ≤ n && n ≤ 0x200A) || n = 0x2028 || n = 0x2029 || n = 0x202F ||
  n = 0x205F || n = 0x3000 || n = 0xFEFF

/-- `s.trim()`: drop the leading and the trailing run of white space. -/
def trim (s : String) : String :=
  ⟨((s.data.dropWhile isWhiteSpace).reverse.dropWhile isWhiteSpace).reverse⟩

/-- `s.split(sep)` for a one-character separator. -/
def split (s : String) (sep : Char) : List String :=
  (s.data.splitOn sep).map String.mk

/-- `xs.join(sep)` on an array of strings. -/
def join (xs : List String) (sep : String) : String :=
  sep.intercalate xs

/-- `xs.slice(start, stop)`; `stop = none` is the one-argument call.  A negative
index counts from the end of the array. -/
def slice {α : Type} (xs : List α) (start : Int) (stop : Option Int) : List α :=
  let len : Int := xs.length
  let k : Int := if start < 0 then max (len + start) 0 else min start len
  let e : Int := match stop with
    | none => len
    | some r => if r < 0 then max (len + r) 0 else min r len
  (xs.drop k.toNat).take (e - k).toNat

/-- `xs[i]` used as a string: an index out of range reads `undefined`. -/
def index (xs : List String) (i : Nat) : String :=
  xs.getD i "undefined"

/-- `s.padStart(n, c)` for a one-character filler. -/
def padStart (s : String) (n : Nat) (c : Char) : String :=
  ⟨List.replicate (n - s.length) c⟩ ++ s

/-- A string is blank when it consists of white space only (the empty string
included). -/
def isBlank (s : String) : Prop :=
  ∀ c ∈ s.data, isWhiteSpace c = true

instance (s : String) : Decidable (isBlank s) := by
  unfold isBlank; infer_instance

/-! ## The page and the outcome of a builder -/

/-- The values the engine reads: the two closure variables and the form fields,
named after the element ids (`web-author` is `webAuthor`, and so on). -/
structure Page where
  currentStyle : String
  currentTab : String
  author : String
  title : String
  publisher : String
  year : String
  webAuthor : String
  webTitle : String
  siteName : String
  url : String
  accessDate : String
  deriving DecidableEq

/-- What a builder does: the string it returns and the message it alerts, if any. -/
structure Outcome where
  value : String
  alert : Option String
  deriving DecidableEq

/-! ## The host's `Date` -/

/-- What ECMA-262 leaves to the implementation. -/
structure Host where
  /-- The offset of local time from UTC at the UTC time `t`, in milliseconds
  (`LocalTZA(t, true)`). -/
  localTZA : Int → Int
  /-- The time value `Date.parse` gives a string that is not a valid date-only
  ISO string `YYYY-MM-DD` (`none` is `NaN`). -/
  legacyParse : String → Option Int

def msPerDay : Int := 86400000

/-- ECMA-262 `Day(t)`. -/
def Day (t : Int) : Int := t / msPerDay

/-- ECMA-262 `DaysInYear(y)`. -/
def DaysInYear (y : Int) : Int :=
  if y % 4 ≠ 0 then 365 else if y % 100 ≠ 0 then 366 else if y % 400 ≠ 0 then 365 else 366

/-- ECMA-262 `DayFromYear(y)`: the day number of the first day of year `y`. -/
def DayFromYear (y : Int) : Int :=
  365 * (y - 1970) + (y - 1969) / 4 - (y - 1901) / 100 + (y - 1601) / 400

/-- ECMA-262 `YearFromTime(t)`: the largest `y` with `DayFromYear y ≤ Day t`.
The mean year length places it within one year of the estimate `y0`. -/
def YearFromTime (t : Int) : Int :=
  let y0 : Int := 1970 + Day t * 400 / 146097
  if DayFromYear (y0 + 1) ≤ Day t then y0 + 1
  else if DayFromYear y0 ≤ Day t then y0
  else y0 - 1

/-- ECMA-262 `InLeapYear(t)`, as 0 or 1. -/
def InLeapYear (t : Int) : Int :=
  if DaysInYear (YearFromTime t) = 366 then 1 else 0

/-- ECMA-262 `DayWithinYear(t)`. -/
def DayWithinYear (t : Int) : Int := Day t - DayFromYear (YearFromTime t)

/-- ECMA-262 `MonthFromTime(t)`: 0 is January. -/
def MonthFromTime (t : Int) : Nat :=
  let d := DayWithinYear t
  let l := InLeapYear t
  if d < 31 then 0 else if d < 59 + l then 1 else if d < 90 + l then 2
  else if d < 120 + l then 3 else if d < 151 + l then 4 else if d < 181 + l then 5
  else if d < 212 + l then 6 else if d < 243 + l then 7 else if d < 273 + l then 8
  else if d < 304 + l then 9 else if d < 334 + l then 10 else 11

/-- ECMA-262 `DateFromTime(t)`: the day of the month, from 1. -/
def DateFromTime (t : Int) : Int :=
  let d := DayWithinYear t
  let l := InLeapYear t
  match MonthFromTime t with
  | 0 => d + 1
  | 1 => d - 30
  | 2 => d - 58 - l
  | 3 => d - 89 - l
  | 4 => d - 119 - l
  | 5 => d - 150 - l
  | 6 => d - 180 - l
  | 7 => d - 211 - l
  | 8 => d - 242 - l
  | 9 => d - 272 - l
  | 10 => d - 303 - l
  | _ => d - 333 - l

/-- The number of days of month `m` (1 is January) in year `y`. -/
def daysInMonth (y : Int) (m : Nat) : Nat :=
  if m = 2 then (if DaysInYear y = 366 then 29 else 28)
  else if m = 4 ∨ m = 6 ∨ m = 9 ∨ m = 11 then 30 else 31

/-- The number of days of year `y` before month `m` (1 is January). -/
def daysBeforeMonth (y : Int) (m : Nat) : Int :=
  ((List.range (m - 1)).map (fun i => (daysInMonth y (i + 1) : Int))).sum

/-- ECMA-262 `MakeDay(year, month, date)` for a month in range, with the month
counted from 1 as in the date string. -/
def MakeDay (y : Int) (m d : Nat) : Int :=
  DayFromYear y + daysBeforeMonth y m + (d : Int) - 1

/-- The value of a decimal digit. -/
def digit (c : Char) : Option Nat :=
  if '0' ≤ c ∧ c ≤ '9' then some (c.toNat - '0'.toNat) else none

/-- The date-only form `YYYY-MM-DD` of the ECMA-262 date-time string format, read
as (year, month, day); `none` when the string is not of that form or does not
name a day of the calendar. -/
def parseIsoDate (s : String) : Option (Nat × Nat × Nat) :=
  match s.data with
  | [y1, y2, y3, y4, s1, m1, m2, s2, d1, d2] =>
    match digit y1, digit y2, digit y3, digit y4, digit m1, digit m2, digit d1, digit d2 with
    | some a, some b, some c, some d, some e, some f, some g, some h =>
      let y := 1000 * a + 100 * b + 10 * c + d
      let m := 10 * e + f
      let dd := 10 * g + h
      if s1 = '-' ∧ s2 = '-' ∧ 1 ≤ m ∧ m ≤ 12 ∧ 1 ≤ dd ∧ dd ≤ daysInMonth y m
      then some (y, m, dd) else none
    | _, _, _, _, _, _, _, _ => none
  | _ => none

/-- The time value of `new Date(dateStr)`, `none` for an invalid date (`NaN`).
A date-only ISO string is read as midnight UTC. -/
def newDate (host : Host) (dateStr : String) : Option Int :=
  match parseIsoDate dateStr with
  | some (y, m, d) => some (MakeDay y m d * msPerDay)
  | none => host.legacyParse dateStr

/-- ECMA-262 `LocalTime(t)`. -/
def LocalTime (host : Host) (t : Int) : Int := t + host.localTZA t

def getFullYear (host : Host) (t : Int) : Int := YearFromTime (LocalTime host t)

def getMonth (host : Host) (t : Int) : Nat := MonthFromTime (LocalTime host t)

def getDate (host : Host) (t : Int) : Int := DateFromTime (LocalTime host t)

/-! ## The engine -/

def months : List String :=
  ["January", "February", "March", "April", "May", "June",
   "July", "August", "September", "October", "November", "December"]

def shortMonths : List String :=
  ["Jan.", "Feb.", "Mar.", "Apr.", "May", "June",
   "July", "Aug.", "Sept.", "Oct.", "Nov.", "Dec."]

/-- `monthToString(month, short = false)`. -/
def monthToString (month : Nat) (short : Bool) : String :=
  if short then index shortMonths (month - 1) else index months (month - 1)

/-- `formatDate(dateStr, style)`. -/
def formatDate (host : Host) (dateStr : String) (style : String) : String :=
  match newDate host dateStr with
  | none => ""
  | some date =>
    let year := getFullYear host date
    let month := getMonth host date + 1
    let day := getDate host date
    if style = "apa" then
      monthToString month false ++ " " ++ toString day ++ ", " ++ toString year
    else if style = "mla" then
      toString day ++ " " ++ monthToString month true ++ " " ++ toString year
    else if style = "chicago" then
      monthToString month false ++ " " ++ toString day ++ ", " ++ toString year
    else
      toString year ++ "-" ++ padStart (toString month) 2 '0' ++ "-" ++
        padStart (toString day) 2 '0'

/-- The author list of `processAuthors`: `authorStr.split(',').map(a => a.trim())`. -/
def authorList (authorStr : String) : List String :=
  (split authorStr ',').map trim

/-- `processAuthors(authorStr)`, with the closure variable `currentStyle` as a
parameter.  `+` of a string and the one-element array `authors.slice(-1)` appends
the array's `toString()`, which is `join(',')`. -/
def processAuthors (currentStyle : String) (authorStr : String) : String :=
  let authors := authorList authorStr
  if authors.length = 0 then ""
  else if authors.length = 1 then index authors 0
  else if currentStyle = "apa" then
    if authors.length ≤ 20 then
      join (slice authors 0 (some (-1))) ", " ++ " & " ++ join (slice authors (-1) none) ","
    else index authors 0 ++ " et al."
  else if currentStyle = "mla" then
    if authors.length ≤ 2 then join authors " and "
    else index authors 0 ++ " et al."
  else if currentStyle = "chicago" then
    if authors.length ≤ 10 then
      join (slice authors 0 (some (-1))) ", " ++ ", and " ++ join (slice authors (-1) none) ","
    else index authors 0 ++ " et al."
  else join authors ", "

def bookAlert : String :=
  "Please fill in all required fields (Author, Title, Publisher, Year)"

def websiteAlert : String :=
  "Please fill in all required fields (Title, Website Name, URL, Access Date)"

/-- `generateBookCitation()`.  `!x` on a string is `x = ""`. -/
def generateBookCitation (p : Page) : Outcome :=
  let author := trim p.author
  let title := trim p.title
  let publisher := trim p.publisher
  let year := trim p.year
  if author = "" ∨ title = "" ∨ publisher = "" ∨ year = "" then
    ⟨"", some bookAlert⟩
  else
    let authors := processAuthors p.currentStyle author
    if p.currentStyle = "apa" then
      ⟨authors ++ " (" ++ year ++ "). <i>" ++ title ++ "</i>. " ++ publisher ++ ".", none⟩
    else if p.currentStyle = "mla" then
      ⟨authors ++ ". <i>" ++ title ++ "</i>, " ++ publisher ++ ", " ++ year ++ ".", none⟩
    else if p.currentStyle = "chicago" then
      ⟨authors ++ ". " ++ year ++ ". <i>" ++ title ++ "</i>. " ++ publisher ++ ".", none⟩
    else ⟨"", none⟩

/-- `generateWebsiteCitation()`.  The access date is read without `trim()`. -/
def generateWebsiteCitation (host : Host) (p : Page) : Outcome :=
  let author := trim p.webAuthor
  let title := trim p.webTitle
  let siteName := trim p.siteName
  let url := trim p.url
  let accessDate := p.accessDate
  if title = "" ∨ siteName = "" ∨ url = "" ∨ accessDate = "" then
    ⟨"", some websiteAlert⟩
  else
    let formattedAccessDate := formatDate host accessDate p.currentStyle
    let authors := if author ≠ "" then processAuthors p.currentStyle author ++ "." else ""
    if p.currentStyle = "apa" then
      ⟨authors ++ " (n.d.). " ++ title ++ ". <i>" ++ siteName ++ "</i>. Retrieved " ++
        formattedAccessDate ++ ", from " ++ url, none⟩
    else if p.currentStyle = "mla" then
      ⟨authors ++ " \"" ++ title ++ ".\" <i>" ++ siteName ++ "</i>, n.d., " ++ url ++
        ". Accessed " ++ formattedAccessDate ++ ".", none⟩
    else if p.currentStyle = "chicago" then
      ⟨authors ++ " \"" ++ title ++ ".\" " ++ siteName ++ ". " ++ url ++ " (accessed " ++
        formattedAccessDate ++ ").", none⟩
    else ⟨"", none⟩

/-- A host on UTC whose `Date.parse` accepts the date-only ISO strings alone. -/
def utcHost : Host := ⟨fun _ => 0, fun _ => none⟩

/-- A host five hours west of UTC (`UTC-05:00`) whose `Date.parse` accepts the
date-only ISO strings alone. -/
def westHost : Host := ⟨fun _ => -18000000, fun _ => none⟩

/-! ## The display and `generateCitation` -/

/-- What the page shows: the `innerHTML` of `citation-output` and the messages
alerted so far, in order. -/
structure Display where
  citationOutput : String
  alerts : List String
  deriving DecidableEq

/-- `generateCitation()`.  `String.prototype.toUpperCase` is a parameter.  A tab
other than `book` and `website` leaves `citation` at `''`; `if (citation)` on a
string is `citation ≠ ""`. -/
def generateCitation (host : Host) (toUpperCase : String → String) (p : Page)
    (d : Display) : Display :=
  let o : Outcome :=
    if p.currentTab = "book" then generateBookCitation p
    else if p.currentTab = "website" then generateWebsiteCitation host p
    else ⟨"", none⟩
  let alerts := match o.alert with
    | some m => d.alerts ++ [m]
    | none => d.alerts
  if o.value ≠ "" then
    ⟨"<strong>" ++ toUpperCase p.currentStyle ++ " Citation:</strong><br>" ++ o.value, alerts⟩
  else ⟨d.citationOutput, alerts⟩

/-- Upper case of the letters `a` to `z`; it agrees with `toUpperCase` on the
three style names. -/
def upperAscii (s : String) : String := ⟨s.data.map Char.toUpper⟩

/-- The message `msg` contains the text `name`. -/
def mentions (msg name : String) : Prop := name.data <:+: msg.data

instance (msg name : String) : Decidable (mentions msg name) := by
  unfold mentions; infer_instance

/-- A lenient reading of `YYYY-MM-DD`, as V8 does it: the day may be any of 01 to
31 whatever the month, and `MakeDay` carries a day past the end of the month into
the next month. -/
def parseLenientDate (s : String) : Option Int :=
  match s.data with
  | [y1, y2, y3, y4, s1, m1, m2, s2, d1, d2] =>
    match digit y1, digit y2, digit y3, digit y4, digit m1, digit m2, digit d1, digit d2 with
    | some a, some b, some c, some d, some e, some f, some g, some h =>
      let y := 1000 * a + 100 * b + 10 * c + d
      let m := 10 * e + f
      let dd := 10 * g + h
      if s1 = '-' ∧ s2 = '-' ∧ 1 ≤ m ∧ m ≤ 12 ∧ 1 ≤ dd ∧ dd ≤ 31
      then some (MakeDay y m dd * msPerDay) else none
    | _, _, _, _, _, _, _, _ => none
  | _ => none

/-- A host on UTC whose `Date.parse` reads date-only strings leniently. -/
def lenientHost : Host := ⟨fun _ => 0, parseLenientDate⟩

/-! ## Example inputs -/

/-- The page of the Book example: APA, author "Smith, Jones", title "T",
publisher "P", year "2020". -/
def bookExample : Page :=
  { currentStyle := "apa", currentTab := "book", author := "Smith, Jones", title := "T",
    publisher := "P", year := "2020", webAuthor := "", webTitle := "", siteName := "",
    url := "", accessDate := "" }

/-- The page of the Website example: Chicago, title "T", site name "S",
url "http://x", access date "2023-01-01", no author. -/
def websiteExample : Page :=
  { currentStyle := "chicago", currentTab := "website", author := "", title := "",
    publisher := "", year := "", webAuthor := "", webTitle := "T", siteName := "S",
    url := "http://x", accessDate := "2023-01-01" }

/-- A Website page in APA whose access date is a single space. -/
def blankDatePage : Page :=
  { currentStyle := "apa", currentTab := "website", author := "", title := "",
    publisher := "", year := "", webAuthor := "Smith", webTitle := "T", siteName := "S",
    url := "http://x", accessDate := " " }

/-- A Website page in MLA with two authors. -/
def authoredPage : Page :=
  { currentStyle := "mla", currentTab := "website", author := "", title := "",
    publisher := "", year := "", webAuthor := " Smith, Jones ", webTitle := "T",
    siteName := "S", url := "http://x", accessDate := "2023-03-05" }

/-- Twenty names, "A, B, ..., T". -/
def twentyNames : String := "A, B, C, D, E, F, G, H, I, J, K, L, M, N, O, P, Q, R, S, T"

/-- Ten names, "A, B, ..., J". -/
def tenNames : String := "A, B, C, D, E, F, G, H, I, J"

/-- The page of the failing Book example: MLA, no author, title "T",
publisher "P", year "2020". -/
def missingAuthorPage : Page :=
  { currentStyle := "mla", currentTab := "book", author := "", title := "T",
    publisher := "P", year := "2020", webAuthor := "", webTitle := "", siteName := "",
    url := "", accessDate := "" }

/-- A display that shows an earlier citation. -/
def earlierDisplay : Display :=
  ⟨"<strong>APA Citation:</strong><br>Smith (2020). <i>T</i>. P.", []⟩

/-- The Book example with the tab and the Website fields changed. -/
def bookExampleOtherTab : Page :=
  { bookExample with currentTab := "website", webAuthor := "Brown", webTitle := "W",
                     siteName := "N", url := "http://y", accessDate := "2024-02-29" }

/-- The Website example with the tab and the Book fields changed. -/
def websiteExampleOtherTab : Page :=
  { websiteExample with currentTab := "book", author := "Brown", title := "B",
                        publisher := "Q", year := "1999" }

/-- A Website page in MLA whose access date is the impossible "2023-02-30". -/
def impossibleDatePage : Page :=
  { currentStyle := "mla", currentTab := "website", author := "", title := "",
    publisher := "", year := "", webAuthor := "", webTitle := "T", siteName := "S",
    url := "http://x", accessDate := "2023-02-30" }

/-- A Website page in MLA whose access date is not a date. -/
def unparsedDatePage : Page :=
  { currentStyle := "mla", currentTab := "website", author := "", title := "",
    publisher := "", year := "", webAuthor := "", webTitle := "T", siteName := "S",
    url := "http://x", accessDate := "soon" }

/-- A Website page in MLA with three authors. -/
def threeAuthorsPage : Page :=
  { currentStyle := "mla", currentTab := "website", author := "", title := "",
    publisher := "", year := "", webAuthor := "A, B, C", webTitle := "T",
    siteName := "S", url := "http://x", accessDate := "2023-03-05" }

/-! ## Auxiliary facts -/

theorem dropWhile_all_iff (q : Char → Bool) (l : List Char) :
    (∀ c ∈ l.dropWhile q, q c = true) ↔ ∀ c ∈ l, q c = true := by
  induction l with
  | nil => simp
  | cons a t ih =>
    by_cases h : q a = true
    · simp [List.dropWhile_cons, h, ih]
    · simp [List.dropWhile_cons, h]

theorem trim_eq_empty_iff (s : String) : trim s = "" ↔ isBlank s := by
  unfold trim isBlank
  rw [String.ext_iff]
  show ((s.data.dropWhile isWhiteSpace).reverse.dropWhile isWhiteSpace).reverse = [] ↔ _
  rw [List.reverse_eq_nil_iff, List.dropWhile_eq_nil_iff]
  simp only [List.mem_reverse]
  exact dropWhile_all_iff _ _

theorem slice_init {α : Type} (init : List α) (last : α) :
    slice (init ++ [last]) 0 (some (-1)) = init := by
  have h : min (0 : Int) ((init.length : Int) + 1) = 0 := by omega
  simp [slice, h]

theorem slice_last {α : Type} (init : List α) (last : α) :
    slice (init ++ [last]) (-1) none = [last] := by
  simp [slice]

theorem join_singleton (a sep : String) : join [a] sep = a := by
  simp [join, String.intercalate, String.intercalate.go]

theorem join_pair (a b sep : String) : join [a, b] sep = a ++ sep ++ b := by
  simp [join, String.intercalate, String.intercalate.go]

/-! ## The Book builder -/

/-- C1: when author, title, publisher and year are all non-blank, the Book builder
alerts nothing and returns the template of the current style filled with the
trimmed fields and the author phrase `processAuthors (trim author)`. -/
theorem generateBookCitation_template (p : Page)
    (ha : ¬ isBlank p.author) (ht : ¬ isBlank p.title)
    (hp : ¬ isBlank p.publisher) (hy : ¬ isBlank p.year) :
    (p.currentStyle = "apa" → generateBookCitation p =
      ⟨processAuthors "apa" (trim p.author) ++ " (" ++ trim p.year ++ "). <i>" ++
        trim p.title ++ "</i>. " ++ trim p.publisher ++ ".", none⟩) ∧
    (p.currentStyle = "mla" → generateBookCitation p =
      ⟨processAuthors "mla" (trim p.author) ++ ". <i>" ++ trim p.title ++ "</i>, " ++
        trim p.publisher ++ ", " ++ trim p.year ++ ".", none⟩) ∧
    (p.currentStyle = "chicago" → generateBookCitation p =
      ⟨processAuthors "chicago" (trim p.author) ++ ". " ++ trim p.year ++ ". <i>" ++
        trim p.title ++ "</i>. " ++ trim p.publisher ++ ".", none⟩) := by
  refine ⟨?_, ?_, ?_⟩ <;> intro h <;>
    simp [generateBookCitation, trim_eq_empty_iff, ha, ht, hp, hy, h]

/-- C1, at the example: "Smith, Jones", "T", "P", "2020" in APA. -/
theorem generateBookCitation_template_witness :
    (¬ isBlank bookExample.author ∧ ¬ isBlank bookExample.title ∧
      ¬ isBlank bookExample.publisher ∧ ¬ isBlank bookExample.year) ∧
    generateBookCitation bookExample = ⟨"Smith & Jones (2020). <i>T</i>. P.", none⟩ :=
  ⟨by decide,
   ((generateBookCitation_template bookExample (by decide) (by decide) (by decide)
      (by decide)).1 rfl).trans (by decide)⟩

/-- C2: the Book builder fails validation (alerts and returns the empty string)
exactly when at least one of author, title, publisher, year is blank, whatever the
style; otherwise it alerts nothing. -/
theorem generateBookCitation_fails_iff (p : Page) :
    (generateBookCitation p = ⟨"", some bookAlert⟩ ↔
      (isBlank p.author ∨ isBlank p.title ∨ isBlank p.publisher ∨ isBlank p.year)) ∧
    ((generateBookCitation p).alert = none ↔
      ¬ (isBlank p.author ∨ isBlank p.title ∨ isBlank p.publisher ∨ isBlank p.year)) := by
  by_cases hb : isBlank p.author ∨ isBlank p.title ∨ isBlank p.publisher ∨ isBlank p.year
  · have hc : trim p.author = "" ∨ trim p.title = "" ∨ trim p.publisher = "" ∨
        trim p.year = "" := by simpa only [trim_eq_empty_iff] using hb
    simp [generateBookCitation, hc, hb]
  · have hc : ¬ (trim p.author = "" ∨ trim p.title = "" ∨ trim p.publisher = "" ∨
        trim p.year = "") := by simpa only [trim_eq_empty_iff] using hb
    simp only [generateBookCitation, hc, hb, if_false, iff_false, not_false_eq_true, iff_true]
    constructor
    · split_ifs <;> simp
    · split_ifs <;> rfl

/-! ## The Website builder -/

/-- C3: an access date of one space is blank after trimming, yet the Website
builder alerts nothing and returns a citation with an empty date: the access date
is the one field that is read without `trim()`. -/
theorem generateWebsiteCitation_blank_accessDate :
    isBlank blankDatePage.accessDate ∧
    generateWebsiteCitation utcHost blankDatePage =
      ⟨"Smith. (n.d.). T. <i>S</i>. Retrieved , from http://x", none⟩ := by
  decide

/-- What the Website validation does test: the builder returns a citation only if
title, site name and url are non-blank and the access date, as entered, is not
the empty string; and the author field does not change whether validation
passes. -/
theorem generateWebsiteCitation_emits_only_if (host : Host) (p : Page) :
    ((generateWebsiteCitation host p).value ≠ "" →
      ¬ isBlank p.webTitle ∧ ¬ isBlank p.siteName ∧ ¬ isBlank p.url ∧ p.accessDate ≠ "") ∧
    (∀ a : String, (generateWebsiteCitation host { p with webAuthor := a }).alert =
      (generateWebsiteCitation host p).alert) := by
  constructor
  · intro h
    by_contra hn
    have hc : trim p.webTitle = "" ∨ trim p.siteName = "" ∨ trim p.url = "" ∨
        p.accessDate = "" := by
      simp only [trim_eq_empty_iff]
      tauto
    exact h (by simp [generateWebsiteCitation, hc])
  · intro a
    simp only [generateWebsiteCitation]
    split_ifs <;> rfl

/-- The Website example passes the validation. -/
theorem generateWebsiteCitation_emits_only_if_witness :
    (generateWebsiteCitation utcHost websiteExample).value ≠ "" ∧
    (¬ isBlank websiteExample.webTitle ∧ ¬ isBlank websiteExample.siteName ∧
      ¬ isBlank websiteExample.url ∧ websiteExample.accessDate ≠ "") :=
  ⟨by decide, (generateWebsiteCitation_emits_only_if utcHost websiteExample).1 (by decide)⟩

/-- C4: at the Website example (Chicago, no author) the builder returns a string
that starts with a space: the author phrase is empty but the blank that separates
it from the rest of the template stays. -/
theorem generateWebsiteCitation_no_author_leading_space :
    generateWebsiteCitation utcHost websiteExample =
      ⟨" \"T.\" S. http://x (accessed January 1, 2023).", none⟩ := by
  decide

/-- C5: for a Website page that passes validation and has a non-blank author, the
builder alerts nothing and returns `processAuthors (trim author)`, a period, a
space, and the rest of the style's template. -/
theorem generateWebsiteCitation_with_author (host : Host) (p : Page)
    (ht : ¬ isBlank p.webTitle) (hs : ¬ isBlank p.siteName) (hu : ¬ isBlank p.url)
    (hd : p.accessDate ≠ "") (ha : ¬ isBlank p.webAuthor) :
    (p.currentStyle = "apa" → generateWebsiteCitation host p =
      ⟨processAuthors "apa" (trim p.webAuthor) ++ "." ++ " " ++
        ("(n.d.). " ++ trim p.webTitle ++ ". <i>" ++ trim p.siteName ++ "</i>. Retrieved " ++
          formatDate host p.accessDate "apa" ++ ", from " ++ trim p.url), none⟩) ∧
    (p.currentStyle = "mla" → generateWebsiteCitation host p =
      ⟨processAuthors "mla" (trim p.webAuthor) ++ "." ++ " " ++
        ("\"" ++ trim p.webTitle ++ ".\" <i>" ++ trim p.siteName ++ "</i>, n.d., " ++
          trim p.url ++ ". Accessed " ++ formatDate host p.accessDate "mla" ++ "."), none⟩) ∧
    (p.currentStyle = "chicago" → generateWebsiteCitation host p =
      ⟨processAuthors "chicago" (trim p.webAuthor) ++ "." ++ " " ++
        ("\"" ++ trim p.webTitle ++ ".\" " ++ trim p.siteName ++ ". " ++ trim p.url ++
          " (accessed " ++ formatDate host p.accessDate "chicago" ++ ")."), none⟩) := by
  have e1 : ∀ x : String, ". " ++ ("(n.d.). " ++ x) = ". (n.d.). " ++ x :=
    fun x => (String.append_assoc _ _ _).symm
  have e2 : ∀ x : String, ". " ++ ("\"" ++ x) = ". \"" ++ x :=
    fun x => (String.append_assoc _ _ _).symm
  refine ⟨?_, ?_, ?_⟩ <;> intro h <;>
    simp [generateWebsiteCitation, trim_eq_empty_iff, ha, ht, hs, hu, hd, h, e1, e2,
      String.append_assoc]

/-- C5, at a page with two authors in MLA. -/
theorem generateWebsiteCitation_with_author_witness :
    (¬ isBlank authoredPage.webTitle ∧ ¬ isBlank authoredPage.siteName ∧
      ¬ isBlank authoredPage.url ∧ authoredPage.accessDate ≠ "" ∧
      ¬ isBlank authoredPage.webAuthor) ∧
    generateWebsiteCitation utcHost authoredPage =
      ⟨"Smith and Jones. \"T.\" <i>S</i>, n.d., http://x. Accessed 5 Mar. 2023.", none⟩ :=
  ⟨by decide,
   ((generateWebsiteCitation_with_author utcHost authoredPage (by decide) (by decide)
      (by decide) (by decide) (by decide)).2.1 rfl).trans (by decide)⟩

/-! ## The author phrase -/

/-- C6: in APA, an author list of 2 to 20 names gives all names but the last
joined with ", ", then " & " and the last name; a list of more than 20 names
gives the first name and " et al.". -/
theorem processAuthors_apa (raw : String) :
    (∀ (init : List String) (last : String), authorList raw = init ++ [last] →
      1 ≤ init.length → init.length + 1 ≤ 20 →
      processAuthors "apa" raw = ", ".intercalate init ++ " & " ++ last) ∧
    (∀ (first : String) (rest : List String), authorList raw = first :: rest →
      20 < rest.length + 1 →
      processAuthors "apa" raw = first ++ " et al.") := by
  constructor
  · intro init last h h1 h20
    have hn1 : ¬ init.length = 0 := by omega
    simp [processAuthors, h, slice_init, slice_last, join_singleton, hn1, h20]
    rfl
  · intro first rest h h20
    have hn1 : ¬ rest.length = 0 := by omega
    have hn2 : ¬ rest.length + 1 ≤ 20 := by omega
    simp [processAuthors, h, hn1, hn2, index]

/-- C6, at "Smith, Jones", at twenty names and at twenty-one names. -/
theorem processAuthors_apa_witness :
    (authorList "Smith, Jones" = ["Smith"] ++ ["Jones"] ∧
      processAuthors "apa" "Smith, Jones" = "Smith & Jones") ∧
    ((authorList twentyNames).length = 20 ∧
      processAuthors "apa" twentyNames =
        "A, B, C, D, E, F, G, H, I, J, K, L, M, N, O, P, Q, R, S & T") ∧
    ((authorList (twentyNames ++ ", U")).length = 21 ∧
      processAuthors "apa" (twentyNames ++ ", U") = "A et al.") :=
  ⟨⟨by decide, ((processAuthors_apa "Smith, Jones").1 ["Smith"] "Jones" (by decide)
      (by decide) (by decide)).trans (by decide)⟩,
   ⟨by decide, ((processAuthors_apa twentyNames).1 (authorList twentyNames).dropLast "T"
      (by decide) (by decide) (by decide)).trans (by decide)⟩,
   ⟨by decide, (processAuthors_apa (twentyNames ++ ", U")).2 "A"
      (authorList (twentyNames ++ ", U")).tail (by decide) (by decide)⟩⟩

/-- C7: in MLA, an author list of exactly two names gives the two joined with
" and "; a list of more than two names gives the first name and " et al.". -/
theorem processAuthors_mla (raw : String) :
    (∀ a1 a2 : String, authorList raw = [a1, a2] →
      processAuthors "mla" raw = a1 ++ " and " ++ a2) ∧
    (∀ (first : String) (rest : List String), authorList raw = first :: rest →
      2 < rest.length + 1 →
      processAuthors "mla" raw = first ++ " et al.") := by
  constructor
  · intro a1 a2 h
    simp [processAuthors, h, join_pair]
  · intro first rest h h2
    have hn1 : ¬ rest.length = 0 := by omega
    have hn2 : ¬ rest.length + 1 ≤ 2 := by omega
    simp [processAuthors, h, hn1, hn2, index]

/-- C7, at two names and at three names. -/
theorem processAuthors_mla_witness :
    (authorList "Smith, Jones" = ["Smith", "Jones"] ∧
      processAuthors "mla" "Smith, Jones" = "Smith and Jones") ∧
    (authorList "Smith, Jones, Brown" = "Smith" :: ["Jones", "Brown"] ∧
      processAuthors "mla" "Smith, Jones, Brown" = "Smith et al.") :=
  ⟨⟨by decide, ((processAuthors_mla "Smith, Jones").1 "Smith" "Jones" (by decide)).trans
      (by decide)⟩,
   ⟨by decide, (processAuthors_mla "Smith, Jones, Brown").2 "Smith" ["Jones", "Brown"]
      (by decide) (by decide)⟩⟩

/-- C8: in Chicago, an author list of 2 to 10 names gives all names but the last
joined with ", ", then ", and " and the last name; a list of more than 10 names
gives the first name and " et al.". -/
theorem processAuthors_chicago (raw : String) :
    (∀ (init : List String) (last : String), authorList raw = init ++ [last] →
      1 ≤ init.length → init.length + 1 ≤ 10 →
      processAuthors "chicago" raw = ", ".intercalate init ++ ", and " ++ last) ∧
    (∀ (first : String) (rest : List String), authorList raw = first :: rest →
      10 < rest.length + 1 →
      processAuthors "chicago" raw = first ++ " et al.") := by
  constructor
  · intro init last h h1 h10
    have hn1 : ¬ init.length = 0 := by omega
    simp [processAuthors, h, slice_init, slice_last, join_singleton, hn1, h10]
    rfl
  · intro first rest h h10
    have hn1 : ¬ rest.length = 0 := by omega
    have hn2 : ¬ rest.length + 1 ≤ 10 := by omega
    simp [processAuthors, h, hn1, hn2, index]

/-- C8, at two names, at ten names and at eleven names. -/
theorem processAuthors_chicago_witness :
    (authorList "Smith, Jones" = ["Smith"] ++ ["Jones"] ∧
      processAuthors "chicago" "Smith, Jones" = "Smith, and Jones") ∧
    ((authorList tenNames).length = 10 ∧
      processAuthors "chicago" tenNames = "A, B, C, D, E, F, G, H, I, and J") ∧
    ((authorList (tenNames ++ ", K")).length = 11 ∧
      processAuthors "chicago" (tenNames ++ ", K") = "A et al.") :=
  ⟨⟨by decide, ((processAuthors_chicago "Smith, Jones").1 ["Smith"] "Jones" (by decide)
      (by decide) (by decide)).trans (by decide)⟩,
   ⟨by decide, ((processAuthors_chicago tenNames).1 (authorList tenNames).dropLast "J"
      (by decide) (by decide) (by decide)).trans (by decide)⟩,
   ⟨by decide, (processAuthors_chicago (tenNames ++ ", K")).2 "A"
      (authorList (tenNames ++ ", K")).tail (by decide) (by decide)⟩⟩

theorem authorList_no_comma (raw : String) (h : ',' ∉ raw.data) :
    authorList raw = [trim raw] := by
  have hs : raw.data.splitOn ',' = [raw.data] := by
    apply List.splitOnP_eq_single
    intro x hx hc
    have : x = ',' := by simpa using hc
    exact h (this ▸ hx)
  simp [authorList, split, hs]

/-- C9: whatever the style, a raw author string without a comma gives that one
name, trimmed. -/
theorem processAuthors_single (style raw : String) (h : ',' ∉ raw.data) :
    processAuthors style raw = trim raw := by
  simp [processAuthors, authorList_no_comma raw h, index]

/-- C9, at "Smith" for the three styles and another one, at a padded name, and at
the empty string. -/
theorem processAuthors_single_witness :
    ',' ∉ "Smith".data ∧ ',' ∉ " Smith ".data ∧ ',' ∉ "".data ∧
    processAuthors "apa" "Smith" = "Smith" ∧ processAuthors "mla" "Smith" = "Smith" ∧
    processAuthors "chicago" "Smith" = "Smith" ∧ processAuthors "harvard" "Smith" = "Smith" ∧
    processAuthors "apa" " Smith " = "Smith" ∧ processAuthors "mla" "" = "" :=
  ⟨by decide, by decide, by decide,
   (processAuthors_single "apa" "Smith" (by decide)).trans (by decide),
   (processAuthors_single "mla" "Smith" (by decide)).trans (by decide),
   (processAuthors_single "chicago" "Smith" (by decide)).trans (by decide),
   (processAuthors_single "harvard" "Smith" (by decide)).trans (by decide),
   (processAuthors_single "apa" " Smith " (by decide)).trans (by decide),
   (processAuthors_single "mla" "" (by decide)).trans (by decide)⟩

/-! ## The access date -/

/-- C10: on a host five hours west of UTC, `formatDate` of "2023-03-05" names the
day before, in APA and in Chicago: the string is read as midnight UTC and the
day, month and year are taken in local time.  On a host on UTC it names the day
of the string. -/
theorem formatDate_west_of_utc_previous_day :
    formatDate westHost "2023-03-05" "apa" = "March 4, 2023" ∧
    formatDate westHost "2023-03-05" "chicago" = "March 4, 2023" ∧
    formatDate utcHost "2023-03-05" "apa" = "March 5, 2023" := by
  decide

/-- C11: on a host five hours west of UTC, `formatDate` of "2023-03-05" in MLA
names the day before, "4 Mar. 2023"; on a host on UTC it gives "5 Mar. 2023".  The
abbreviations of months 1 to 12 are the table of the claim. -/
theorem formatDate_mla_west_of_utc_previous_day :
    formatDate westHost "2023-03-05" "mla" = "4 Mar. 2023" ∧
    formatDate utcHost "2023-03-05" "mla" = "5 Mar. 2023" ∧
    (List.range 12).map (fun i => monthToString (i + 1) true) =
      ["Jan.", "Feb.", "Mar.", "Apr.", "May", "June",
       "July", "Aug.", "Sept.", "Oct.", "Nov.", "Dec."] := by
  decide

/-- C12, as stated, fails: on a host that reads the day of a date-only string
leniently, the impossible date "2023-02-30" is carried over to 2 March 2023 and
`formatDate` returns that day, not the empty string. -/
theorem formatDate_impossible_date_rolls_over :
    parseIsoDate "2023-02-30" = none ∧
    formatDate lenientHost "2023-02-30" "apa" = "March 2, 2023" ∧
    formatDate lenientHost "2023-02-30" "mla" = "2 Mar. 2023" := by
  decide

/-- C12, amended: whatever the style, `formatDate` returns the empty string for
every string that `new Date` does not parse, which are the strings that are no
date-only ISO date and that the host's own parser rejects. -/
theorem formatDate_invalid (host : Host) (dateStr style : String) :
    (newDate host dateStr = none ↔
      parseIsoDate dateStr = none ∧ host.legacyParse dateStr = none) ∧
    (newDate host dateStr = none → formatDate host dateStr style = "") := by
  constructor
  · unfold newDate
    cases h : parseIsoDate dateStr with
    | none => simp
    | some v => obtain ⟨y, m, d⟩ := v; simp
  · intro h
    simp [formatDate, h]

/-- C12, amended, at "not-a-date", at the empty string and at "2023-02-30" on a
host that accepts the date-only ISO strings alone. -/
theorem formatDate_invalid_witness :
    (newDate utcHost "not-a-date" = none ∧ formatDate utcHost "not-a-date" "apa" = "") ∧
    (newDate utcHost "" = none ∧ formatDate utcHost "" "mla" = "") ∧
    (newDate utcHost "2023-02-30" = none ∧ formatDate utcHost "2023-02-30" "harvard" = "") :=
  ⟨⟨by decide, (formatDate_invalid utcHost "not-a-date" "apa").2 (by decide)⟩,
   ⟨by decide, (formatDate_invalid utcHost "" "mla").2 (by decide)⟩,
   ⟨by decide, (formatDate_invalid utcHost "2023-02-30" "harvard").2 (by decide)⟩⟩

/-- C13: on a host five hours west of UTC, `formatDate` of "2023-03-05" with a
style outside the three gives "2023-03-04", not the input string; on a host on
UTC it gives "2023-03-05". -/
theorem formatDate_fallback_west_of_utc_previous_day :
    formatDate westHost "2023-03-05" "harvard" = "2023-03-04" ∧
    formatDate utcHost "2023-03-05" "harvard" = "2023-03-05" := by
  decide

/-- C14, as stated, fails: with only the author missing, the Book builder alerts
the fixed message, which names Title, Publisher and Year although they are filled
in. -/
theorem generateBookCitation_alert_names_filled_fields :
    generateBookCitation missingAuthorPage = ⟨"", some bookAlert⟩ ∧
    (¬ isBlank missingAuthorPage.title ∧ mentions bookAlert "Title") ∧
    (¬ isBlank missingAuthorPage.publisher ∧ mentions bookAlert "Publisher") ∧
    (¬ isBlank missingAuthorPage.year ∧ mentions bookAlert "Year") := by
  decide

/-- C14, amended: a builder that fails validation alerts one fixed message, which
names all the required fields of the source type whichever of them are blank. -/
theorem validation_alert_fixed (host : Host) (p : Page) :
    (∀ m, (generateBookCitation p).alert = some m →
      m = "Please fill in all required fields (Author, Title, Publisher, Year)") ∧
    (∀ m, (generateWebsiteCitation host p).alert = some m →
      m = "Please fill in all required fields (Title, Website Name, URL, Access Date)") := by
  constructor
  · intro m
    simp only [generateBookCitation]
    split_ifs <;> simp [bookAlert]
    exact fun h => h.symm
  · intro m
    simp only [generateWebsiteCitation]
    split_ifs <;> simp [websiteAlert]
    exact fun h => h.symm

/-- C14, amended, at the failing Book example and at a Website page without
title. -/
theorem validation_alert_fixed_witness :
    ((generateBookCitation missingAuthorPage).alert = some bookAlert ∧
      bookAlert = "Please fill in all required fields (Author, Title, Publisher, Year)") ∧
    ((generateWebsiteCitation utcHost missingAuthorPage).alert = some websiteAlert ∧
      websiteAlert =
        "Please fill in all required fields (Title, Website Name, URL, Access Date)") :=
  ⟨⟨by decide, (validation_alert_fixed utcHost missingAuthorPage).1 bookAlert (by decide)⟩,
   ⟨by decide, (validation_alert_fixed utcHost missingAuthorPage).2 websiteAlert (by decide)⟩⟩

theorem intercalate_go_data (sep acc : String) (l : List String) :
    (String.intercalate.go acc sep l).data =
      acc.data ++ (l.map (fun a => sep.data ++ a.data)).flatten := by
  induction l generalizing acc with
  | nil => simp [String.intercalate.go]
  | cons a t ih => simp [String.intercalate.go, ih, String.data_append]

theorem intercalate_data (sep : String) (l : List String) :
    (sep.intercalate l).data = sep.data.intercalate (l.map String.data) := by
  cases l with
  | nil => rfl
  | cons a t =>
    simp only [String.intercalate, intercalate_go_data, List.intercalate, List.map_cons]
    induction t generalizing a with
    | nil => simp
    | cons b u ih =>
      have := ih b
      simp only [List.map_cons, List.flatten_cons, List.intersperse_cons_cons,
        List.append_assoc] at this ⊢
      cases u <;> simp_all

theorem splitOn_length (a : Char) (l : List Char) :
    (l.splitOn a).length = l.count a + 1 := by
  induction l with
  | nil => simp
  | cons c t ih =>
    simp only [List.splitOn] at ih ⊢
    rw [List.splitOnP_cons]
    by_cases h : c = a
    · subst h
      simp [ih]
    · have h2 : ¬ (c == a) = true := by simpa using h
      simp [h2, ih, List.count_cons, h]

/-! ## Failure and determinism -/

/-- C15: a builder that fails validation returns the empty string, and
`generateCitation` on its tab then leaves the displayed citation as it was. -/
theorem failure_atomic (host : Host) (toUpperCase : String → String) (p : Page)
    (d : Display) :
    ((generateBookCitation p).alert ≠ none →
      (generateBookCitation p).value = "" ∧
      (p.currentTab = "book" →
        (generateCitation host toUpperCase p d).citationOutput = d.citationOutput)) ∧
    ((generateWebsiteCitation host p).alert ≠ none →
      (generateWebsiteCitation host p).value = "" ∧
      (p.currentTab = "website" →
        (generateCitation host toUpperCase p d).citationOutput = d.citationOutput)) := by
  constructor
  · intro h
    have hv : (generateBookCitation p).value = "" := by
      revert h
      simp only [generateBookCitation]
      split_ifs <;> simp
    refine ⟨hv, fun ht => ?_⟩
    simp [generateCitation, ht, hv]
  · intro h
    have hv : (generateWebsiteCitation host p).value = "" := by
      revert h
      simp only [generateWebsiteCitation]
      split_ifs <;> simp
    refine ⟨hv, fun ht => ?_⟩
    simp [generateCitation, ht, hv]

/-- C15, at the failing Book example shown over an earlier citation, and at the
same fields on the Website tab. -/
theorem failure_atomic_witness :
    ((generateBookCitation missingAuthorPage).alert ≠ none ∧
      (generateBookCitation missingAuthorPage).value = "" ∧
      generateCitation utcHost upperAscii missingAuthorPage earlierDisplay =
        ⟨earlierDisplay.citationOutput, [bookAlert]⟩) ∧
    ((generateWebsiteCitation utcHost missingAuthorPage).alert ≠ none ∧
      (generateWebsiteCitation utcHost missingAuthorPage).value = "") :=
  ⟨⟨by decide,
    ((failure_atomic utcHost upperAscii missingAuthorPage earlierDisplay).1 (by decide)).1,
    by decide⟩,
   ⟨by decide,
    ((failure_atomic utcHost upperAscii missingAuthorPage earlierDisplay).2 (by decide)).1⟩⟩

/-- C16, as stated, fails: the same Website page gives different citations on
different hosts.  A host that rejects "2023-02-30" leaves the date empty where a
lenient host prints 2 March 2023; and the page of "2023-03-05" reads 5 March on
UTC and 4 March five hours west of it. -/
theorem generateWebsiteCitation_differs_between_hosts :
    (generateWebsiteCitation utcHost impossibleDatePage =
        ⟨" \"T.\" <i>S</i>, n.d., http://x. Accessed .", none⟩ ∧
      generateWebsiteCitation lenientHost impossibleDatePage =
        ⟨" \"T.\" <i>S</i>, n.d., http://x. Accessed 2 Mar. 2023.", none⟩) ∧
    (generateWebsiteCitation utcHost threeAuthorsPage =
        ⟨"A et al.. \"T.\" <i>S</i>, n.d., http://x. Accessed 5 Mar. 2023.", none⟩ ∧
      generateWebsiteCitation westHost threeAuthorsPage =
        ⟨"A et al.. \"T.\" <i>S</i>, n.d., http://x. Accessed 4 Mar. 2023.", none⟩) := by
  decide

/-- C16, amended: the outcome of the Book builder is determined by the style and
the four Book fields, on every host.  The outcome of the Website builder is
determined by the style, the five Website fields and the text `formatDate` gives
for the access date, so it is the same for two invocations on one host, and on two
hosts whose parser and local time agree.  No state passes from one call to the
next: a second `generateCitation` on the same page shows what the first showed. -/
theorem builders_determined (h1 h2 : Host) (toUpperCase : String → String)
    (p q : Page) (hs : p.currentStyle = q.currentStyle) :
    (p.author = q.author → p.title = q.title → p.publisher = q.publisher →
      p.year = q.year → generateBookCitation p = generateBookCitation q) ∧
    (p.webAuthor = q.webAuthor → p.webTitle = q.webTitle → p.siteName = q.siteName →
      p.url = q.url → p.accessDate = q.accessDate →
      formatDate h1 p.accessDate p.currentStyle = formatDate h2 p.accessDate p.currentStyle →
      generateWebsiteCitation h1 p = generateWebsiteCitation h2 q) ∧
    (p.webAuthor = q.webAuthor → p.webTitle = q.webTitle → p.siteName = q.siteName →
      p.url = q.url → p.accessDate = q.accessDate →
      generateWebsiteCitation h1 p = generateWebsiteCitation h1 q) ∧
    (h1.legacyParse p.accessDate = h2.legacyParse p.accessDate →
      (∀ t, h1.localTZA t = h2.localTZA t) →
      formatDate h1 p.accessDate p.currentStyle = formatDate h2 p.accessDate p.currentStyle) ∧
    (∀ d : Display,
      (generateCitation h1 toUpperCase p
        (generateCitation h1 toUpperCase p d)).citationOutput =
      (generateCitation h1 toUpperCase p d).citationOutput) := by
  refine ⟨?_, ?_, ?_, ?_, ?_⟩
  · intro e1 e2 e3 e4
    simp only [generateBookCitation, hs, e1, e2, e3, e4]
  · intro e1 e2 e3 e4 e5 ef
    simp only [generateWebsiteCitation, ← hs, ← e5, e1, e2, e3, e4, ef]
  · intro e1 e2 e3 e4 e5
    simp only [generateWebsiteCitation, hs, e1, e2, e3, e4, e5]
  · intro el et
    simp only [formatDate, newDate]
    cases parseIsoDate p.accessDate with
    | none => simp only [el, getFullYear, getMonth, getDate, LocalTime, et]
    | some v => simp only [getFullYear, getMonth, getDate, LocalTime, et]
  · intro d
    simp only [generateCitation]
    split_ifs <;> rfl

/-- C16, amended, at the Book example against a page that differs in the tab and
in the Website fields, and at the Website example on two hosts that agree on its
date. -/
theorem builders_determined_witness :
    (bookExample.currentStyle = bookExampleOtherTab.currentStyle ∧
      generateBookCitation bookExample = generateBookCitation bookExampleOtherTab) ∧
    (websiteExample.currentStyle = websiteExampleOtherTab.currentStyle ∧
      formatDate utcHost websiteExample.accessDate websiteExample.currentStyle =
        formatDate lenientHost websiteExample.accessDate websiteExample.currentStyle ∧
      generateWebsiteCitation utcHost websiteExample =
        generateWebsiteCitation lenientHost websiteExampleOtherTab) :=
  ⟨⟨by decide, (builders_determined utcHost lenientHost upperAscii bookExample
      bookExampleOtherTab (by decide)).1 (by decide) (by decide) (by decide) (by decide)⟩,
   ⟨by decide, by decide, (builders_determined utcHost lenientHost upperAscii websiteExample
      websiteExampleOtherTab (by decide)).2.1 (by decide) (by decide) (by decide)
      (by decide) (by decide) (by decide)⟩⟩

/-! ## Quirks of the author list and of the Website builder -/

/-- C17: the author list of a comma-joined string has one entry per segment, in
order, each trimmed; a segment that is blank stays as an empty name and counts. -/
theorem authorList_keeps_every_segment (segs : List String) (hne : segs ≠ [])
    (hc : ∀ s ∈ segs, ',' ∉ s.data) :
    authorList (",".intercalate segs) = segs.map trim ∧
    (authorList (",".intercalate segs)).length = segs.length := by
  have hs : ((",".intercalate segs).data).splitOn ',' = segs.map String.data := by
    rw [intercalate_data]
    apply List.splitOn_intercalate
    · intro l hl
      obtain ⟨s, hs, rfl⟩ := List.mem_map.1 hl
      exact hc s hs
    · simpa using hne
  have h : authorList (",".intercalate segs) = segs.map trim := by
    simp [authorList, split, hs]
  exact ⟨h, by rw [h, List.length_map]⟩

/-- C17, at "Smith," and "Smith,,Jones" in APA, and at "Smith,," in MLA, where the
two empty names bring the list over the threshold. -/
theorem authorList_keeps_every_segment_witness :
    (authorList "Smith," = ["Smith", ""] ∧ processAuthors "apa" "Smith," = "Smith & ") ∧
    (authorList "Smith,,Jones" = ["Smith", "", "Jones"] ∧
      processAuthors "apa" "Smith,,Jones" = "Smith,  & Jones") ∧
    (authorList "Smith,," = ["Smith", "", ""] ∧
      processAuthors "mla" "Smith,," = "Smith et al.") :=
  ⟨⟨(authorList_keeps_every_segment ["Smith", ""] (by decide) (by decide)).1, by decide⟩,
   ⟨(authorList_keeps_every_segment ["Smith", "", "Jones"] (by decide) (by decide)).1,
    by decide⟩,
   ⟨(authorList_keeps_every_segment ["Smith", "", ""] (by decide) (by decide)).1,
    by decide⟩⟩

/-- C18: a Website page that passes validation and whose access date `new Date`
does not parse still gets a citation, with the empty text where the date
belongs. -/
theorem generateWebsiteCitation_unparsed_date (host : Host) (p : Page)
    (ht : ¬ isBlank p.webTitle) (hs : ¬ isBlank p.siteName) (hu : ¬ isBlank p.url)
    (hd : p.accessDate ≠ "") (hn : newDate host p.accessDate = none) :
    (generateWebsiteCitation host p).alert = none ∧
    (p.currentStyle = "apa" → ∃ pre post,
      (generateWebsiteCitation host p).value = pre ++ "Retrieved , from " ++ post) ∧
    (p.currentStyle = "mla" → ∃ pre,
      (generateWebsiteCitation host p).value = pre ++ "Accessed .") ∧
    (p.currentStyle = "chicago" → ∃ pre,
      (generateWebsiteCitation host p).value = pre ++ "(accessed ).") := by
  have hf : ∀ style, formatDate host p.accessDate style = "" := by
    intro style
    simp [formatDate, hn]
  have hv : ¬ (trim p.webTitle = "" ∨ trim p.siteName = "" ∨ trim p.url = "" ∨
      p.accessDate = "") := by
    simp only [trim_eq_empty_iff]
    tauto
  refine ⟨?_, ?_, ?_, ?_⟩
  · simp only [generateWebsiteCitation, hv, if_false]
    split_ifs <;> rfl
  · intro h
    simp only [generateWebsiteCitation, hv, if_false, h, hf, if_true]
    generalize (if trim p.webAuthor ≠ "" then processAuthors "apa" (trim p.webAuthor) ++ "."
      else "") = a
    refine ⟨a ++ " (n.d.). " ++ trim p.webTitle ++ ". <i>" ++ trim p.siteName ++ "</i>. ",
      trim p.url, ?_⟩
    apply String.ext
    simp only [String.data_append, List.append_assoc]
    rfl
  · intro h
    simp only [generateWebsiteCitation, hv, if_false, h, hf, if_true,
      show ¬ ("mla" : String) = "apa" by decide]
    generalize (if trim p.webAuthor ≠ "" then processAuthors "mla" (trim p.webAuthor) ++ "."
      else "") = a
    refine ⟨a ++ " \"" ++ trim p.webTitle ++ ".\" <i>" ++ trim p.siteName ++
      "</i>, n.d., " ++ trim p.url ++ ". ", ?_⟩
    apply String.ext
    simp only [String.data_append, List.append_assoc]
    rfl
  · intro h
    simp only [generateWebsiteCitation, hv, if_false, h, hf, if_true,
      show ¬ ("chicago" : String) = "apa" by decide,
      show ¬ ("chicago" : String) = "mla" by decide]
    generalize (if trim p.webAuthor ≠ "" then
      processAuthors "chicago" (trim p.webAuthor) ++ "." else "") = a
    refine ⟨a ++ " \"" ++ trim p.webTitle ++ ".\" " ++ trim p.siteName ++ ". " ++
      trim p.url ++ " ", ?_⟩
    apply String.ext
    simp only [String.data_append, List.append_assoc]
    rfl

/-- C18, at a page in MLA whose access date is "soon". -/
theorem generateWebsiteCitation_unparsed_date_witness :
    (¬ isBlank unparsedDatePage.webTitle ∧ ¬ isBlank unparsedDatePage.siteName ∧
      ¬ isBlank unparsedDatePage.url ∧ unparsedDatePage.accessDate ≠ "" ∧
      newDate utcHost unparsedDatePage.accessDate = none) ∧
    generateWebsiteCitation utcHost unparsedDatePage =
      ⟨" \"T.\" <i>S</i>, n.d., http://x. Accessed .", none⟩ ∧
    ∃ pre, (generateWebsiteCitation utcHost unparsedDatePage).value = pre ++ "Accessed ." :=
  ⟨by decide, by decide,
   (generateWebsiteCitation_unparsed_date utcHost unparsedDatePage (by decide) (by decide)
      (by decide) (by decide) (by decide)).2.2.1 rfl⟩

/-- C19: the author list has one entry more than the raw string has commas, so
it is never empty; the list of the empty string is the single empty name, which
the single-name branch returns. -/
theorem authorList_length (raw : String) :
    (authorList raw).length = raw.data.count ',' + 1 ∧
    (authorList raw).length ≠ 0 ∧
    authorList "" = [""] ∧
    (∀ style : String, processAuthors style "" = index (authorList "") 0) := by
  have h : (authorList raw).length = raw.data.count ',' + 1 := by
    simp [authorList, split, splitOn_length]
  refine ⟨h, by omega, by decide, ?_⟩
  intro style
  simp [processAuthors, show authorList "" = [""] by decide]

/-- C20: in a Website citation an author list longer than the threshold of the
style gives a result that starts with the first name, " et al." and the appended
period, then a space. -/
theorem generateWebsiteCitation_et_al_period (host : Host) (p : Page)
    (ht : ¬ isBlank p.webTitle) (hs : ¬ isBlank p.siteName) (hu : ¬ isBlank p.url)
    (hd : p.accessDate ≠ "") (first : String) (rest : List String)
    (hl : authorList (trim p.webAuthor) = first :: rest) :
    (p.currentStyle = "apa" → 20 < rest.length + 1 → ∃ post,
      (generateWebsiteCitation host p).value = first ++ " et al.. " ++ post) ∧
    (p.currentStyle = "mla" → 2 < rest.length + 1 → ∃ post,
      (generateWebsiteCitation host p).value = first ++ " et al.. " ++ post) ∧
    (p.currentStyle = "chicago" → 10 < rest.length + 1 → ∃ post,
      (generateWebsiteCitation host p).value = first ++ " et al.. " ++ post) := by
  have hv : ¬ (trim p.webTitle = "" ∨ trim p.siteName = "" ∨ trim p.url = "" ∨
      p.accessDate = "") := by
    simp only [trim_eq_empty_iff]
    tauto
  have ha : 1 ≤ rest.length → trim p.webAuthor ≠ "" := by
    intro h1 he
    rw [he, show authorList "" = [""] by decide] at hl
    injection hl with _ h2
    rw [← h2] at h1
    simp at h1
  refine ⟨?_, ?_, ?_⟩
  · intro h hn
    have hpa : processAuthors "apa" (trim p.webAuthor) = first ++ " et al." := by
      have hn1 : ¬ rest.length = 0 := by omega
      have hn2 : ¬ rest.length + 1 ≤ 20 := by omega
      simp [processAuthors, hl, hn1, hn2, index]
    simp only [generateWebsiteCitation, hv, if_false, h, if_true, ha (by omega), ne_eq,
      not_false_eq_true, hpa]
    refine ⟨"(n.d.). " ++ trim p.webTitle ++ ". <i>" ++ trim p.siteName ++
      "</i>. Retrieved " ++ formatDate host p.accessDate "apa" ++ ", from " ++ trim p.url, ?_⟩
    apply String.ext
    simp only [String.data_append, List.append_assoc]
    rfl
  · intro h hn
    have hpa : processAuthors "mla" (trim p.webAuthor) = first ++ " et al." := by
      have hn1 : ¬ rest.length = 0 := by omega
      have hn2 : ¬ rest.length + 1 ≤ 2 := by omega
      simp [processAuthors, hl, hn1, hn2, index]
    simp only [generateWebsiteCitation, hv, if_false, h, if_true, ha (by omega), ne_eq,
      not_false_eq_true, hpa, show ¬ ("mla" : String) = "apa" by decide]
    refine ⟨"\"" ++ trim p.webTitle ++ ".\" <i>" ++ trim p.siteName ++ "</i>, n.d., " ++
      trim p.url ++ ". Accessed " ++ formatDate host p.accessDate "mla" ++ ".", ?_⟩
    apply String.ext
    simp only [String.data_append, List.append_assoc]
    rfl
  · intro h hn
    have hpa : processAuthors "chicago" (trim p.webAuthor) = first ++ " et al." := by
      have hn1 : ¬ rest.length = 0 := by omega
      have hn2 : ¬ rest.length + 1 ≤ 10 := by omega
      simp [processAuthors, hl, hn1, hn2, index]
    simp only [generateWebsiteCitation, hv, if_false, h, if_true, ha (by omega), ne_eq,
      not_false_eq_true, hpa, show ¬ ("chicago" : String) = "apa" by decide,
      show ¬ ("chicago" : String) = "mla" by decide]
    refine ⟨"\"" ++ trim p.webTitle ++ ".\" " ++ trim p.siteName ++ ". " ++ trim p.url ++
      " (accessed " ++ formatDate host p.accessDate "chicago" ++ ").", ?_⟩
    apply String.ext
    simp only [String.data_append, List.append_assoc]
    rfl

/-- C20, at a page in MLA with the authors "A, B, C". -/
theorem generateWebsiteCitation_et_al_period_witness :
    (¬ isBlank threeAuthorsPage.webTitle ∧ ¬ isBlank threeAuthorsPage.siteName ∧
      ¬ isBlank threeAuthorsPage.url ∧ threeAuthorsPage.accessDate ≠ "" ∧
      authorList (trim threeAuthorsPage.webAuthor) = "A" :: ["B", "C"]) ∧
    generateWebsiteCitation utcHost threeAuthorsPage =
      ⟨"A et al.. \"T.\" <i>S</i>, n.d., http://x. Accessed 5 Mar. 2023.", none⟩ ∧
    ∃ post, (generateWebsiteCitation utcHost threeAuthorsPage).value =
      "A" ++ " et al.. " ++ post :=
  ⟨by decide, by decide,
   (generateWebsiteCitation_et_al_period utcHost threeAuthorsPage (by decide) (by decide)
      (by decide) (by decide) "A" ["B", "C"] (by decide)).2.1 rfl (by decide)⟩

end CitationGenerator
